import Mathlib

/-!
Shallow embedding of the `unlocker` smart contract
(`src/unlocker/src/lib.rs`, elrond-wasm).

Machine integers (`BigUint`, `u32`, `u64`) are modelled as `Nat`;
`BigUint` subtraction, which signals an error on underflow, is guarded
explicitly.  Addresses (`ManagedAddress`) are `Nat`, with `0` playing the
role of the zero address.  `TokenIdentifier` is an opaque pair of a
numeric identity and the boolean answer of the external
`is_valid_esdt_identifier` validator (an external collaborator of the
contract; the contract only ever branches on its boolean verdict).

Each endpoint is a function from the blockchain environment (caller,
owner, externally observed contract balances) and the persisted storage
to `Except`.  A `require!` failure in elrond-wasm aborts the whole
transaction; to make "no partial mutation" a provable property rather
than one true by construction, errors carry the storage and the transfer
list as they stood at the failure point, so a hypothetical
mutate-then-fail path would be visible in the model.
-/

namespace Unlocker

def PERCENTAGE_TOTAL : Nat := 10000

def MINIMUM_DEPOSIT : Nat := 1000

/-- `TokenIdentifier`: opaque identity plus the verdict of the external
ESDT-identifier validator. -/
structure TokenId where
  ident : Nat
  validEsdt : Bool
deriving DecidableEq, Repr

/-- Verdict of the external `is_valid_esdt_identifier` collaborator. -/
def is_valid_esdt_identifier (t : TokenId) : Bool := t.validEsdt

/-- `ManagedAddress`; `0` is the zero address (`is_zero`). -/
abbrev Addr := Nat

/-- One outbound `send().direct(...)` request. -/
structure Transfer where
  recipient : Addr
  token : TokenId
  nonce : Nat
  amount : Nat
deriving DecidableEq, Repr

/-- Persisted contract storage: the four storage mappers of the source. -/
structure State where
  fee_percent : Nat
  to_token : TokenId
  from_tokens : List TokenId
  depositor_balance : Addr → Nat

/-- Blockchain environment: caller, owner, and the externally observed
balance query `get_sc_balance token nonce`. -/
structure Env where
  caller : Addr
  owner : Addr
  sc_balance : TokenId → Nat → Nat

/-- An aborted transaction: the message, and the storage and transfer
list as they stood when the abort fired. -/
abbrev TxError := String × State × List Transfer

abbrev TxResult := Except TxError (State × List Transfer)

def txOk : TxResult → Bool
  | Except.ok _ => true
  | Except.error _ => false

def txState : TxResult → State
  | Except.ok r => r.1
  | Except.error e => e.2.1

def txTransfers : TxResult → List Transfer
  | Except.ok r => r.2
  | Except.error e => e.2.2

def txMsg : TxResult → String
  | Except.ok _ => ""
  | Except.error e => e.1

/-- `calculate_percentage`: `total_amount * percentage / PERCENTAGE_TOTAL`
(floor division). -/
def calculate_percentage (total_amount percentage : Nat) : Nat :=
  total_amount * percentage / PERCENTAGE_TOTAL

/-- `calculate_amount_with_fees`: amount plus the fee on it. -/
def calculate_amount_with_fees (s : State) (amount : Nat) : Nat :=
  amount + calculate_percentage amount s.fee_percent

/-- `get_liquidity_balance`: the contract's held balance of `to_token`
at nonce 0, observed from the environment. -/
def get_liquidity_balance (env : Env) (s : State) : Nat :=
  env.sc_balance s.to_token 0

/-- The `swap` endpoint.  Guards appear in source order; the guard
`calculate_percentage ... ≤ amount` models the `BigUint` subtraction
`&amount - &fee`, which signals an error on underflow. -/
def swap (env : Env) (s : State) (token_id : TokenId) (amount : Nat) : TxResult :=
  if PERCENTAGE_TOTAL ≤ amount then
    if env.caller ≠ 0 then
      if token_id ∈ s.from_tokens then
        if 0 < s.fee_percent then
          if calculate_percentage amount s.fee_percent ≤ amount then
            if amount - calculate_percentage amount s.fee_percent < amount then
              if amount - calculate_percentage amount s.fee_percent ≤ get_liquidity_balance env s then
                if 0 < amount - calculate_percentage amount s.fee_percent then
                  Except.ok (s,
                    [⟨env.caller, s.to_token, 0,
                      amount - calculate_percentage amount s.fee_percent⟩])
                else Except.error ("nothing to send", s, [])
              else Except.error ("no liquidity", s, [])
            else Except.error ("incorrect fee", s, [])
          else Except.error ("cannot subtract because result would be negative", s, [])
        else Except.error ("zero fee", s, [])
      else Except.error ("token not supported", s, [])
    else Except.error ("invalid caller", s, [])
  else Except.error ("amount too small", s, [])

/-- The `deposit` endpoint. -/
def deposit (env : Env) (s : State) (token_id : TokenId) (amount : Nat) : TxResult :=
  if env.caller ≠ 0 then
    if s.to_token = token_id then
      if 0 < amount then
        if MINIMUM_DEPOSIT ≤ amount then
          Except.ok ({ s with depositor_balance := fun a =>
              if a = env.caller then
                s.depositor_balance a + calculate_amount_with_fees s amount
              else s.depositor_balance a }, [])
        else
          Except.error
            ("Deposit amount must be greater than or equal to minimum deposit", s, [])
      else Except.error ("incorrect amount", s, [])
    else Except.error ("token not supported", s, [])
  else Except.error ("invalid caller", s, [])

/-- The `harvest` endpoint. -/
def harvest (env : Env) (s : State) (token : TokenId) (nonce : Nat) (amount : Nat) :
    TxResult :=
  if env.caller ≠ 0 then
    if token ∈ s.from_tokens then
      if 0 < amount then
        if 0 < env.sc_balance token nonce then
          if 0 < s.depositor_balance env.caller then
            if amount ≤ env.sc_balance token nonce then
              if amount ≤ s.depositor_balance env.caller then
                Except.ok ({ s with depositor_balance := fun a =>
                    if a = env.caller then s.depositor_balance a - amount
                    else s.depositor_balance a },
                  [⟨env.caller, token, nonce, amount⟩])
              else Except.error ("Insufficient depositor funds", s, [])
            else Except.error ("Insufficient sc funds", s, [])
          else Except.error ("Insufficient depositor funds (0)", s, [])
        else Except.error ("Insufficient contract funds (0)", s, [])
      else Except.error ("Invalid amount", s, [])
    else Except.error ("token not supported", s, [])
  else Except.error ("invalid caller", s, [])

/-- `SetMapper::insert`: set semantics on the supported-token list. -/
def insert_token (asset : TokenId) (l : List TokenId) : List TokenId :=
  if asset ∈ l then l else asset :: l

/-- Body of `addFromToken`, without the `#[only_owner]` wrapper. -/
def add_from_token_core (s : State) (asset : TokenId) : TxResult :=
  if is_valid_esdt_identifier asset then
    Except.ok ({ s with from_tokens := insert_token asset s.from_tokens }, [])
  else Except.error ("Invalid ESDT", s, [])

/-- Body of `setToToken`, without the `#[only_owner]` wrapper. -/
def add_to_token_core (s : State) (asset : TokenId) : TxResult :=
  if is_valid_esdt_identifier asset then
    Except.ok ({ s with to_token := asset }, [])
  else Except.error ("Invalid ESDT", s, [])

/-- Body of `setFee`, without the `#[only_owner]` wrapper. -/
def try_set_fee_percentage_core (s : State) (new_fee_percentage : Nat) : TxResult :=
  if 0 < new_fee_percentage ∧ new_fee_percentage < PERCENTAGE_TOTAL then
    Except.ok ({ s with fee_percent := new_fee_percentage }, [])
  else Except.error ("Invalid percentage value, should be between 0 and 10,000", s, [])

/-- The `#[only_owner]` access check wrapping every owner endpoint. -/
def only_owner (env : Env) (s : State) (body : TxResult) : TxResult :=
  if env.caller = env.owner then body
  else Except.error ("Endpoint can only be called by owner", s, [])

def add_from_token (env : Env) (s : State) (asset : TokenId) : TxResult :=
  only_owner env s (add_from_token_core s asset)

def add_to_token (env : Env) (s : State) (asset : TokenId) : TxResult :=
  only_owner env s (add_to_token_core s asset)

def try_set_fee_percentage (env : Env) (s : State) (new_fee_percentage : Nat) : TxResult :=
  only_owner env s (try_set_fee_percentage_core s new_fee_percentage)

/-- The `withdraw` endpoint: owner check, then an unconditional transfer
of the full observed balance of `token`/`nonce` to the owner. -/
def withdraw (env : Env) (s : State) (token : TokenId) (nonce : Nat) : TxResult :=
  only_owner env s
    (Except.ok (s, [⟨env.owner, token, nonce, env.sc_balance token nonce⟩]))

/-- Fresh storage before `init`: every mapper at its default. -/
def initialState : State :=
  { fee_percent := 0, to_token := ⟨0, false⟩, from_tokens := [],
    depositor_balance := fun _ => 0 }

/-- `init`: runs the three validated setters on fresh storage in source
order; the deployer is the owner, so the owner checks are moot and the
core bodies run. -/
def init (from_token to_token : TokenId) (fee_percent : Nat) : TxResult :=
  match try_set_fee_percentage_core initialState fee_percent with
  | Except.error e => Except.error e
  | Except.ok (s1, t1) =>
    match add_from_token_core s1 from_token with
    | Except.error e => Except.error e
    | Except.ok (s2, t2) =>
      match add_to_token_core s2 to_token with
      | Except.error e => Except.error e
      | Except.ok (s3, t3) => Except.ok (s3, t1 ++ t2 ++ t3)

/-- The seven public mutating endpoints. -/
inductive Op where
  | swapOp (token_id : TokenId) (amount : Nat)
  | depositOp (token_id : TokenId) (amount : Nat)
  | harvestOp (token : TokenId) (nonce : Nat) (amount : Nat)
  | setFeeOp (new_fee_percentage : Nat)
  | addFromTokenOp (asset : TokenId)
  | setToTokenOp (asset : TokenId)
  | withdrawOp (token : TokenId) (nonce : Nat)
deriving DecidableEq, Repr

def step (env : Env) (s : State) : Op → TxResult
  | Op.swapOp t a => swap env s t a
  | Op.depositOp t a => deposit env s t a
  | Op.harvestOp t n a => harvest env s t n a
  | Op.setFeeOp f => try_set_fee_percentage env s f
  | Op.addFromTokenOp a => add_from_token env s a
  | Op.setToTokenOp a => add_to_token env s a
  | Op.withdrawOp t n => withdraw env s t n

def Op.isAddFromToken : Op → Bool
  | Op.addFromTokenOp _ => true
  | _ => false

/-- The conjunction of an endpoint's guards, read off the source: an
operation reaches its success branch exactly when this holds. -/
def preB (env : Env) (s : State) : Op → Bool
  | Op.swapOp t a =>
      decide (PERCENTAGE_TOTAL ≤ a) && decide (env.caller ≠ 0) &&
      decide (t ∈ s.from_tokens) && decide (0 < s.fee_percent) &&
      decide (calculate_percentage a s.fee_percent ≤ a) &&
      decide (a - calculate_percentage a s.fee_percent < a) &&
      decide (a - calculate_percentage a s.fee_percent ≤ get_liquidity_balance env s) &&
      decide (0 < a - calculate_percentage a s.fee_percent)
  | Op.depositOp t a =>
      decide (env.caller ≠ 0) && decide (s.to_token = t) &&
      decide (0 < a) && decide (MINIMUM_DEPOSIT ≤ a)
  | Op.harvestOp t n a =>
      decide (env.caller ≠ 0) && decide (t ∈ s.from_tokens) && decide (0 < a) &&
      decide (0 < env.sc_balance t n) && decide (0 < s.depositor_balance env.caller) &&
      decide (a ≤ env.sc_balance t n) && decide (a ≤ s.depositor_balance env.caller)
  | Op.setFeeOp f =>
      decide (env.caller = env.owner) && decide (0 < f) && decide (f < PERCENTAGE_TOTAL)
  | Op.addFromTokenOp a =>
      decide (env.caller = env.owner) && is_valid_esdt_identifier a
  | Op.setToTokenOp a =>
      decide (env.caller = env.owner) && is_valid_esdt_identifier a
  | Op.withdrawOp _ _ => decide (env.caller = env.owner)

/-- Storage states reachable from a successful `init` by any sequence of
accepted endpoint calls (a rejected call leaves the state where it was). -/
inductive Reachable : State → Prop where
  | base : ∀ (from_token to_token : TokenId) (fee : Nat) (s : State) (ts : List Transfer),
      init from_token to_token fee = Except.ok (s, ts) → Reachable s
  | next : ∀ (env : Env) (s : State) (op : Op) (s2 : State) (ts : List Transfer),
      Reachable s → step env s op = Except.ok (s2, ts) → Reachable s2

/-! ### Helper lemmas -/

lemma step_error_frame (env : Env) (s : State) (op : Op) (e : TxError)
    (h : step env s op = Except.error e) : e.2.1 = s ∧ e.2.2 = [] := by
  cases op
  all_goals
    simp only [step, swap, deposit, harvest, try_set_fee_percentage, add_from_token,
      add_to_token, withdraw, only_owner, try_set_fee_percentage_core,
      add_from_token_core, add_to_token_core] at h
    split_ifs at h <;> (simp only [Except.error.injEq] at h; subst h; exact ⟨rfl, rfl⟩)

lemma step_fail_frame (env : Env) (s : State) (op : Op)
    (h : txOk (step env s op) = false) :
    txState (step env s op) = s ∧ txTransfers (step env s op) = [] := by
  cases hres : step env s op with
  | ok r => rw [hres] at h; simp [txOk] at h
  | error e =>
    obtain ⟨h1, h2⟩ := step_error_frame env s op e hres
    exact ⟨h1, h2⟩

lemma step_ok_pre (env : Env) (s : State) (op : Op)
    (h : txOk (step env s op) = true) : preB env s op = true := by
  cases op
  all_goals
    simp only [step, swap, deposit, harvest, try_set_fee_percentage, add_from_token,
      add_to_token, withdraw, only_owner, try_set_fee_percentage_core,
      add_from_token_core, add_to_token_core] at h
    split_ifs at h <;> simp_all [preB, txOk]

lemma step_pre_ok (env : Env) (s : State) (op : Op)
    (h : preB env s op = true) : txOk (step env s op) = true := by
  cases op
  all_goals
    simp only [preB, Bool.and_eq_true, decide_eq_true_eq] at h
    simp only [step, swap, deposit, harvest, try_set_fee_percentage, add_from_token,
      add_to_token, withdraw, only_owner, try_set_fee_percentage_core,
      add_from_token_core, add_to_token_core]
    split_ifs <;> simp_all [txOk]

lemma step_ok_iff_pre (env : Env) (s : State) (op : Op) :
    txOk (step env s op) = true ↔ preB env s op = true :=
  ⟨step_ok_pre env s op, step_pre_ok env s op⟩

lemma try_set_core_ok (s : State) (f : Nat) (s2 : State) (ts : List Transfer)
    (h : try_set_fee_percentage_core s f = Except.ok (s2, ts)) :
    0 < f ∧ f < PERCENTAGE_TOTAL ∧ s2.fee_percent = f := by
  unfold try_set_fee_percentage_core at h
  split_ifs at h with h1
  · simp only [Except.ok.injEq, Prod.mk.injEq] at h
    exact ⟨h1.1, h1.2, by rw [← h.1]⟩

lemma add_from_core_ok (s : State) (asset : TokenId) (s2 : State) (ts : List Transfer)
    (h : add_from_token_core s asset = Except.ok (s2, ts)) :
    is_valid_esdt_identifier asset = true ∧ s2.fee_percent = s.fee_percent ∧
      s2.from_tokens = insert_token asset s.from_tokens := by
  unfold add_from_token_core at h
  split_ifs at h with h1
  · simp only [Except.ok.injEq, Prod.mk.injEq] at h
    refine ⟨h1, ?_, ?_⟩ <;> rw [← h.1]

lemma add_to_core_ok (s : State) (asset : TokenId) (s2 : State) (ts : List Transfer)
    (h : add_to_token_core s asset = Except.ok (s2, ts)) :
    is_valid_esdt_identifier asset = true ∧ s2.fee_percent = s.fee_percent ∧
      s2.to_token = asset := by
  unfold add_to_token_core at h
  split_ifs at h with h1
  · simp only [Except.ok.injEq, Prod.mk.injEq] at h
    refine ⟨h1, ?_, ?_⟩ <;> rw [← h.1]

lemma init_fee_bounds (ft tt : TokenId) (fee : Nat) (s : State) (ts : List Transfer)
    (h : init ft tt fee = Except.ok (s, ts)) :
    0 < s.fee_percent ∧ s.fee_percent < PERCENTAGE_TOTAL := by
  unfold init at h
  split at h
  · simp at h
  · rename_i s1 t1 h1
    split at h
    · simp at h
    · rename_i s2 t2 h2
      split at h
      · simp at h
      · rename_i s3 t3 h3
        simp only [Except.ok.injEq, Prod.mk.injEq] at h
        obtain ⟨hs, -⟩ := h
        obtain ⟨hf1, hf2, hfeq⟩ := try_set_core_ok _ _ _ _ h1
        obtain ⟨-, hfe2, -⟩ := add_from_core_ok _ _ _ _ h2
        obtain ⟨-, hfe3, -⟩ := add_to_core_ok _ _ _ _ h3
        subst hs
        rw [hfe3, hfe2, hfeq]
        exact ⟨hf1, hf2⟩

lemma step_ok_fee (env : Env) (s : State) (op : Op) (s2 : State) (ts : List Transfer)
    (h : step env s op = Except.ok (s2, ts)) :
    s2.fee_percent = s.fee_percent ∨
      (0 < s2.fee_percent ∧ s2.fee_percent < PERCENTAGE_TOTAL) := by
  cases op with
  | swapOp t a =>
    left
    simp only [step] at h
    unfold swap at h
    split_ifs at h
    · simp only [Except.ok.injEq, Prod.mk.injEq] at h
      obtain ⟨h1, -⟩ := h
      rw [← h1]
  | depositOp t a =>
    left
    simp only [step] at h
    unfold deposit at h
    split_ifs at h
    · simp only [Except.ok.injEq, Prod.mk.injEq] at h
      obtain ⟨h1, -⟩ := h
      rw [← h1]
  | harvestOp t n a =>
    left
    simp only [step] at h
    unfold harvest at h
    split_ifs at h
    · simp only [Except.ok.injEq, Prod.mk.injEq] at h
      obtain ⟨h1, -⟩ := h
      rw [← h1]
  | setFeeOp f =>
    right
    simp only [step] at h
    unfold try_set_fee_percentage only_owner try_set_fee_percentage_core at h
    split_ifs at h with h1 h2
    · simp only [Except.ok.injEq, Prod.mk.injEq] at h
      obtain ⟨h3, -⟩ := h
      rw [← h3]
      exact h2
  | addFromTokenOp a =>
    left
    simp only [step] at h
    unfold add_from_token only_owner add_from_token_core at h
    split_ifs at h
    · simp only [Except.ok.injEq, Prod.mk.injEq] at h
      obtain ⟨h1, -⟩ := h
      rw [← h1]
  | setToTokenOp a =>
    left
    simp only [step] at h
    unfold add_to_token only_owner add_to_token_core at h
    split_ifs at h
    · simp only [Except.ok.injEq, Prod.mk.injEq] at h
      obtain ⟨h1, -⟩ := h
      rw [← h1]
  | withdrawOp t n =>
    left
    simp only [step] at h
    unfold withdraw only_owner at h
    split_ifs at h
    · simp only [Except.ok.injEq, Prod.mk.injEq] at h
      obtain ⟨h1, -⟩ := h
      rw [← h1]

lemma reachable_fee_bounds (s : State) (h : Reachable s) :
    0 < s.fee_percent ∧ s.fee_percent < PERCENTAGE_TOTAL := by
  induction h with
  | base ft tt fee s1 ts h0 => exact init_fee_bounds ft tt fee s1 ts h0
  | next env s1 op s2 ts hr hstep ih =>
    rcases step_ok_fee env s1 op s2 ts hstep with heq | hb
    · rw [heq]; exact ih
    · exact hb

lemma swap_ok (env : Env) (s : State) (token_id : TokenId) (amount : Nat)
    (s2 : State) (ts : List Transfer)
    (h : swap env s token_id amount = Except.ok (s2, ts)) :
    s2 = s ∧
    ts = [⟨env.caller, s.to_token, 0, amount - calculate_percentage amount s.fee_percent⟩] ∧
    amount - calculate_percentage amount s.fee_percent < amount ∧
    amount - calculate_percentage amount s.fee_percent ≤ get_liquidity_balance env s ∧
    0 < amount - calculate_percentage amount s.fee_percent ∧
    PERCENTAGE_TOTAL ≤ amount := by
  unfold swap at h
  split_ifs at h with h1 h2 h3 h4 h5 h6 h7 h8
  simp only [Except.ok.injEq, Prod.mk.injEq] at h
  exact ⟨h.1.symm, h.2.symm, h6, h7, h8, h1⟩

lemma harvest_ok (env : Env) (s : State) (token : TokenId) (nonce amount : Nat)
    (s2 : State) (ts : List Transfer)
    (h : harvest env s token nonce amount = Except.ok (s2, ts)) :
    env.caller ≠ 0 ∧ token ∈ s.from_tokens ∧ 0 < amount ∧
    0 < env.sc_balance token nonce ∧ amount ≤ env.sc_balance token nonce ∧
    0 < s.depositor_balance env.caller ∧ amount ≤ s.depositor_balance env.caller ∧
    s2.depositor_balance env.caller = s.depositor_balance env.caller - amount := by
  unfold harvest at h
  split_ifs at h with h1 h2 h3 h4 h5 h6 h7
  simp only [Except.ok.injEq, Prod.mk.injEq] at h
  obtain ⟨hs, -⟩ := h
  refine ⟨h1, h2, h3, h4, h6, h5, h7, ?_⟩
  rw [← hs]
  simp

lemma deposit_ok (env : Env) (s : State) (token_id : TokenId) (amount : Nat)
    (s2 : State) (ts : List Transfer)
    (h : deposit env s token_id amount = Except.ok (s2, ts)) :
    s2.depositor_balance env.caller =
      s.depositor_balance env.caller + (amount + calculate_percentage amount s.fee_percent) ∧
    ∀ a : Addr, s.depositor_balance a ≤ s2.depositor_balance a := by
  unfold deposit at h
  split_ifs at h with h1 h2 h3 h4
  simp only [Except.ok.injEq, Prod.mk.injEq] at h
  obtain ⟨hs, -⟩ := h
  constructor
  · rw [← hs]
    simp [calculate_amount_with_fees]
  · intro a
    rw [← hs]
    by_cases hc : a = env.caller
    · subst hc
      simp
    · simp [hc]

lemma try_set_fee_ok (env : Env) (s : State) (f : Nat) (s2 : State) (ts : List Transfer)
    (h : try_set_fee_percentage env s f = Except.ok (s2, ts)) :
    env.caller = env.owner ∧ 0 < f ∧ f < PERCENTAGE_TOTAL ∧ s2.fee_percent = f := by
  unfold try_set_fee_percentage only_owner at h
  split_ifs at h with h1
  obtain ⟨hf1, hf2, hf3⟩ := try_set_core_ok s f s2 ts h
  exact ⟨h1, hf1, hf2, hf3⟩

lemma add_from_ok (env : Env) (s : State) (asset : TokenId) (s2 : State)
    (ts : List Transfer) (h : add_from_token env s asset = Except.ok (s2, ts)) :
    env.caller = env.owner ∧ is_valid_esdt_identifier asset = true ∧
    s2.from_tokens = insert_token asset s.from_tokens ∧
    s2.fee_percent = s.fee_percent := by
  unfold add_from_token only_owner at h
  split_ifs at h with h1
  obtain ⟨hv, hf, hft⟩ := add_from_core_ok s asset s2 ts h
  exact ⟨h1, hv, hft, hf⟩

lemma mem_insert_token (t asset : TokenId) (l : List TokenId) (h : t ∈ l) :
    t ∈ insert_token asset l := by
  unfold insert_token
  split_ifs
  · exact h
  · exact List.mem_cons_of_mem asset h

lemma step_from_tokens (env : Env) (s : State) (op : Op) (s2 : State) (ts : List Transfer)
    (h : step env s op = Except.ok (s2, ts)) :
    s2.from_tokens = s.from_tokens ∨
      ∃ a, op = Op.addFromTokenOp a ∧ env.caller = env.owner ∧
        s2.from_tokens = insert_token a s.from_tokens := by
  cases op with
  | swapOp t a =>
    left
    simp only [step] at h
    unfold swap at h
    split_ifs at h
    simp only [Except.ok.injEq, Prod.mk.injEq] at h
    obtain ⟨h1, -⟩ := h
    rw [← h1]
  | depositOp t a =>
    left
    simp only [step] at h
    unfold deposit at h
    split_ifs at h
    simp only [Except.ok.injEq, Prod.mk.injEq] at h
    obtain ⟨h1, -⟩ := h
    rw [← h1]
  | harvestOp t n a =>
    left
    simp only [step] at h
    unfold harvest at h
    split_ifs at h
    simp only [Except.ok.injEq, Prod.mk.injEq] at h
    obtain ⟨h1, -⟩ := h
    rw [← h1]
  | setFeeOp f =>
    left
    simp only [step] at h
    unfold try_set_fee_percentage only_owner try_set_fee_percentage_core at h
    split_ifs at h
    simp only [Except.ok.injEq, Prod.mk.injEq] at h
    obtain ⟨h1, -⟩ := h
    rw [← h1]
  | addFromTokenOp a =>
    right
    obtain ⟨h1, -, hft, -⟩ := add_from_ok env s a s2 ts h
    exact ⟨a, rfl, h1, hft⟩
  | setToTokenOp a =>
    left
    simp only [step] at h
    unfold add_to_token only_owner add_to_token_core at h
    split_ifs at h
    simp only [Except.ok.injEq, Prod.mk.injEq] at h
    obtain ⟨h1, -⟩ := h
    rw [← h1]
  | withdrawOp t n =>
    left
    simp only [step] at h
    unfold withdraw only_owner at h
    split_ifs at h
    simp only [Except.ok.injEq, Prod.mk.injEq] at h
    obtain ⟨h1, -⟩ := h
    rw [← h1]

/-! ### Concrete data for witnesses -/

def tokA : TokenId := ⟨1, true⟩

def tokB : TokenId := ⟨2, true⟩

def badTok : TokenId := ⟨5, false⟩

def env_demo : Env := ⟨1, 1, fun _ _ => 100000⟩

def s_demo : State := ⟨500, tokB, [tokA], fun _ => 0⟩

def s_funded : State := ⟨500, tokB, [tokA], fun _ => 2000⟩

/-! ### Claim theorems -/

/-- C1: for every accepted swap with payment amount `amount` and stored fee
rate `fee_percent`, the OutputAsset payout to the caller equals
`amount - floor(amount * fee_percent / 10000)`; this payout is strictly
less than `amount` and at most the contract's held OutputAsset balance
observed before the transfer. -/
theorem claim_C1_swap_payout (env : Env) (s : State) (token_id : TokenId) (amount : Nat)
    (h : txOk (swap env s token_id amount) = true) :
    txTransfers (swap env s token_id amount) =
      [⟨env.caller, s.to_token, 0, amount - calculate_percentage amount s.fee_percent⟩] ∧
    amount - calculate_percentage amount s.fee_percent < amount ∧
    amount - calculate_percentage amount s.fee_percent ≤ get_liquidity_balance env s := by
  cases hres : swap env s token_id amount with
  | error e =>
    rw [hres] at h
    simp [txOk] at h
  | ok r =>
    obtain ⟨r1, r2⟩ := r
    obtain ⟨-, hts, hlt, hle, -, -⟩ := swap_ok env s token_id amount r1 r2 hres
    exact ⟨hts, hlt, hle⟩

theorem claim_C1_swap_payout_witness :
    txTransfers (swap env_demo s_demo tokA 10000) =
      [⟨env_demo.caller, s_demo.to_token, 0,
        10000 - calculate_percentage 10000 s_demo.fee_percent⟩] ∧
    10000 - calculate_percentage 10000 s_demo.fee_percent < 10000 ∧
    10000 - calculate_percentage 10000 s_demo.fee_percent ≤
      get_liquidity_balance env_demo s_demo :=
  claim_C1_swap_payout env_demo s_demo tokA 10000 rfl

/-- C9: every call to swap, accepted or rejected, leaves all persisted
storage unchanged; when accepted, the only outbound effect is the single
payout to the caller (the fee is not escrowed, forwarded, or recorded),
and when rejected there is no outbound transfer at all. -/
theorem claim_C9_swap_frame (env : Env) (s : State) (token_id : TokenId) (amount : Nat) :
    txState (swap env s token_id amount) = s ∧
    (txOk (swap env s token_id amount) = true →
      txTransfers (swap env s token_id amount) =
        [⟨env.caller, s.to_token, 0, amount - calculate_percentage amount s.fee_percent⟩]) ∧
    (txOk (swap env s token_id amount) = false →
      txTransfers (swap env s token_id amount) = []) := by
  refine ⟨?_, ?_, ?_⟩
  · unfold swap
    split_ifs <;> rfl
  · intro h
    cases hres : swap env s token_id amount with
    | error e =>
      rw [hres] at h
      simp [txOk] at h
    | ok r =>
      obtain ⟨r1, r2⟩ := r
      obtain ⟨-, hts, -, -, -, -⟩ := swap_ok env s token_id amount r1 r2 hres
      exact hts
  · intro h
    cases hres : swap env s token_id amount with
    | ok r =>
      rw [hres] at h
      simp [txOk] at h
    | error e =>
      exact (step_error_frame env s (Op.swapOp token_id amount) e hres).2

theorem claim_C9_swap_frame_witness :
    txState (swap env_demo s_demo tokA 10000) = s_demo :=
  (claim_C9_swap_frame env_demo s_demo tokA 10000).1

/-- C8: if a swap passes the first four guards (amount at least 10000,
non-zero caller, supported payment token, positive stored fee rate) and
the stored fee rate is below 10000, then the fee is at least 1, the
post-fee amount is at least 1, and the two defensive rejections
"incorrect fee" and "nothing to send" are unreachable. -/
theorem claim_C8_defensive_guards (env : Env) (s : State) (token_id : TokenId)
    (amount : Nat) (h1 : PERCENTAGE_TOTAL ≤ amount) (h2 : env.caller ≠ 0)
    (h3 : token_id ∈ s.from_tokens) (h4 : 0 < s.fee_percent)
    (h5 : s.fee_percent < PERCENTAGE_TOTAL) :
    1 ≤ calculate_percentage amount s.fee_percent ∧
    1 ≤ amount - calculate_percentage amount s.fee_percent ∧
    txMsg (swap env s token_id amount) ≠ "incorrect fee" ∧
    txMsg (swap env s token_id amount) ≠ "nothing to send" := by
  have h1n : (10000 : Nat) ≤ amount := h1
  have h4n : 1 ≤ s.fee_percent := h4
  have h5n : s.fee_percent < 10000 := h5
  have ha : 0 < amount := lt_of_lt_of_le (by norm_num) h1n
  have hfee1 : 1 ≤ calculate_percentage amount s.fee_percent := by
    unfold calculate_percentage PERCENTAGE_TOTAL
    rw [Nat.le_div_iff_mul_le (by norm_num)]
    have hk : 10000 * 1 ≤ amount * s.fee_percent := Nat.mul_le_mul h1n h4n
    simpa using hk
  have hlt : calculate_percentage amount s.fee_percent < amount := by
    unfold calculate_percentage PERCENTAGE_TOTAL
    rw [Nat.div_lt_iff_lt_mul (by norm_num)]
    exact (mul_lt_mul_left ha).mpr h5n
  have hsub : amount - calculate_percentage amount s.fee_percent < amount :=
    Nat.sub_lt ha hfee1
  have hpos : 0 < amount - calculate_percentage amount s.fee_percent :=
    Nat.sub_pos_of_lt hlt
  refine ⟨hfee1, hpos, ?_⟩
  unfold swap
  rw [if_pos h1, if_pos h2, if_pos h3, if_pos h4, if_pos (le_of_lt hlt), if_pos hsub]
  by_cases h7 : amount - calculate_percentage amount s.fee_percent ≤
      get_liquidity_balance env s
  · rw [if_pos h7, if_pos hpos]
    exact ⟨by simp [txMsg], by simp [txMsg]⟩
  · rw [if_neg h7]
    exact ⟨by simp [txMsg], by simp [txMsg]⟩

theorem claim_C8_defensive_guards_witness :
    1 ≤ calculate_percentage 10000 s_demo.fee_percent ∧
    1 ≤ 10000 - calculate_percentage 10000 s_demo.fee_percent ∧
    txMsg (swap env_demo s_demo tokA 10000) ≠ "incorrect fee" ∧
    txMsg (swap env_demo s_demo tokA 10000) ≠ "nothing to send" :=
  claim_C8_defensive_guards env_demo s_demo tokA 10000 (by decide) (by decide)
    (by decide) (by decide) (by decide)

/-- C4: for every operation and every input that fails one of the
operation's guards, the call is rejected with an error and leaves the
persisted storage unchanged, with no outbound transfer. -/
theorem claim_C4_rejection_frame (env : Env) (s : State) (op : Op)
    (h : preB env s op = false) :
    txOk (step env s op) = false ∧ txState (step env s op) = s ∧
      txTransfers (step env s op) = [] := by
  have hok : txOk (step env s op) = false := by
    cases hres : txOk (step env s op)
    · rfl
    · exact absurd (step_ok_pre env s op hres) (by simp [h])
  exact ⟨hok, (step_fail_frame env s op hok).1, (step_fail_frame env s op hok).2⟩

theorem claim_C4_rejection_frame_witness :
    txOk (step env_demo s_demo (Op.swapOp tokA 0)) = false ∧
    txState (step env_demo s_demo (Op.swapOp tokA 0)) = s_demo ∧
    txTransfers (step env_demo s_demo (Op.swapOp tokA 0)) = [] :=
  claim_C4_rejection_frame env_demo s_demo (Op.swapOp tokA 0) rfl

/-- C2: a harvest call is accepted exactly when the caller is non-zero,
the token is supported, the amount is positive, the contract's held
balance of token/nonce is non-zero and at least the amount, and the
caller's depositor balance is non-zero and at least the amount; when
accepted the caller's depositor balance drops by the amount, and when
rejected no storage changes and nothing is sent. -/
theorem claim_C2_harvest_spec (env : Env) (s : State) (token : TokenId)
    (nonce amount : Nat) :
    (txOk (harvest env s token nonce amount) = true ↔
      (env.caller ≠ 0 ∧ token ∈ s.from_tokens ∧ 0 < amount ∧
       0 < env.sc_balance token nonce ∧ amount ≤ env.sc_balance token nonce ∧
       0 < s.depositor_balance env.caller ∧
       amount ≤ s.depositor_balance env.caller)) ∧
    (txOk (harvest env s token nonce amount) = true →
      (txState (harvest env s token nonce amount)).depositor_balance env.caller =
        s.depositor_balance env.caller - amount) ∧
    (txOk (harvest env s token nonce amount) = false →
      txState (harvest env s token nonce amount) = s ∧
      txTransfers (harvest env s token nonce amount) = []) := by
  refine ⟨⟨?_, ?_⟩, ?_, ?_⟩
  · intro h
    cases hres : harvest env s token nonce amount with
    | error e =>
      rw [hres] at h
      simp [txOk] at h
    | ok r =>
      obtain ⟨r1, r2⟩ := r
      obtain ⟨c1, c2, c3, c4, c5, c6, c7, -⟩ :=
        harvest_ok env s token nonce amount r1 r2 hres
      exact ⟨c1, c2, c3, c4, c5, c6, c7⟩
  · intro hc
    exact step_pre_ok env s (Op.harvestOp token nonce amount)
      (by simp only [preB, Bool.and_eq_true, decide_eq_true_eq]; tauto)
  · intro h
    cases hres : harvest env s token nonce amount with
    | error e =>
      rw [hres] at h
      simp [txOk] at h
    | ok r =>
      obtain ⟨r1, r2⟩ := r
      obtain ⟨-, -, -, -, -, -, -, hbal⟩ :=
        harvest_ok env s token nonce amount r1 r2 hres
      exact hbal
  · intro h
    exact step_fail_frame env s (Op.harvestOp token nonce amount) h

theorem claim_C2_harvest_spec_witness :
    (txState (harvest env_demo s_funded tokA 0 1500)).depositor_balance
        env_demo.caller =
      s_funded.depositor_balance env_demo.caller - 1500 :=
  (claim_C2_harvest_spec env_demo s_funded tokA 0 1500).2.1 rfl

/-- C3: every accepted deposit with payment amount `amount` credits the
caller's depositor balance with exactly
`amount + floor(amount * fee_percent / 10000)`, so each depositor's
balance never decreases across deposits. -/
theorem claim_C3_deposit_credit (env : Env) (s : State) (token_id : TokenId)
    (amount : Nat) (a : Addr) (h : txOk (deposit env s token_id amount) = true) :
    (txState (deposit env s token_id amount)).depositor_balance env.caller =
      s.depositor_balance env.caller +
        (amount + calculate_percentage amount s.fee_percent) ∧
    s.depositor_balance a ≤ (txState (deposit env s token_id amount)).depositor_balance a := by
  cases hres : deposit env s token_id amount with
  | error e =>
    rw [hres] at h
    simp [txOk] at h
  | ok r =>
    obtain ⟨r1, r2⟩ := r
    obtain ⟨hb, hmono⟩ := deposit_ok env s token_id amount r1 r2 hres
    exact ⟨hb, hmono a⟩

theorem claim_C3_deposit_credit_witness :
    (txState (deposit env_demo s_demo tokB 1000)).depositor_balance env_demo.caller =
      s_demo.depositor_balance env_demo.caller +
        (1000 + calculate_percentage 1000 s_demo.fee_percent) ∧
    s_demo.depositor_balance 42 ≤
      (txState (deposit env_demo s_demo tokB 1000)).depositor_balance 42 :=
  claim_C3_deposit_credit env_demo s_demo tokB 1000 42 rfl

/-- C5: in every state reachable from a successful init by any sequence
of operations, whenever a swap or a deposit is accepted the stored fee
rate lies strictly between 0 and 10000. -/
theorem claim_C5_fee_invariant (env : Env) (s : State) (token_id : TokenId)
    (amount : Nat) (hreach : Reachable s)
    (_hacc : txOk (step env s (Op.swapOp token_id amount)) = true ∨
      txOk (step env s (Op.depositOp token_id amount)) = true) :
    0 < s.fee_percent ∧ s.fee_percent < PERCENTAGE_TOTAL :=
  reachable_fee_bounds s hreach

theorem claim_C5_fee_invariant_witness :
    0 < s_demo.fee_percent ∧ s_demo.fee_percent < PERCENTAGE_TOTAL :=
  claim_C5_fee_invariant env_demo s_demo tokA 10000
    (Reachable.base tokA tokB 500 s_demo [] rfl) (Or.inl rfl)

/-- C7: an owner call of setFee(f) succeeds exactly when 0 < f < 10000,
in which case the stored fee rate becomes f; it rejects f = 0 and every
f at least 10000, leaving the stored fee rate (and all storage)
unchanged. -/
theorem claim_C7_set_fee_bounds (env : Env) (s : State) (f : Nat)
    (hown : env.caller = env.owner) :
    (txOk (try_set_fee_percentage env s f) = true ↔
      (0 < f ∧ f < PERCENTAGE_TOTAL)) ∧
    (txOk (try_set_fee_percentage env s f) = true →
      (txState (try_set_fee_percentage env s f)).fee_percent = f) ∧
    (txOk (try_set_fee_percentage env s f) = false →
      txState (try_set_fee_percentage env s f) = s) := by
  refine ⟨⟨?_, ?_⟩, ?_, ?_⟩
  · intro h
    cases hres : try_set_fee_percentage env s f with
    | error e =>
      rw [hres] at h
      simp [txOk] at h
    | ok r =>
      obtain ⟨r1, r2⟩ := r
      obtain ⟨-, hf1, hf2, -⟩ := try_set_fee_ok env s f r1 r2 hres
      exact ⟨hf1, hf2⟩
  · intro hc
    exact step_pre_ok env s (Op.setFeeOp f)
      (by simp only [preB, Bool.and_eq_true, decide_eq_true_eq]; tauto)
  · intro h
    cases hres : try_set_fee_percentage env s f with
    | error e =>
      rw [hres] at h
      simp [txOk] at h
    | ok r =>
      obtain ⟨r1, r2⟩ := r
      obtain ⟨-, -, -, hfeq⟩ := try_set_fee_ok env s f r1 r2 hres
      exact hfeq
  · intro h
    exact (step_fail_frame env s (Op.setFeeOp f) h).1

theorem claim_C7_set_fee_bounds_witness :
    (txState (try_set_fee_percentage env_demo s_demo 250)).fee_percent = 250 :=
  (claim_C7_set_fee_bounds env_demo s_demo 250 rfl).2.1 rfl

/-- C6 counterexample: `withdraw`, called by the owner with an
ill-formed asset identifier, is accepted rather than rejected, so the
claim that every administrative operation (including withdraw) validates
its asset-identifier argument and rejects otherwise is false. -/
theorem claim_C6_counterexample :
    is_valid_esdt_identifier badTok = false ∧
    txOk (withdraw env_demo s_demo badTok 0) = true :=
  ⟨rfl, rfl⟩

/-- C6 (amended): among the administrative operations, setFee validates
its fee argument (strictly inside (0, 10000)) and addFromToken and
setToToken validate that their asset identifier is well-formed,
rejecting otherwise; withdraw performs no validation of its arguments
beyond the owner check and always succeeds for the owner. -/
theorem claim_C6_admin_validation (env : Env) (s : State) (f : Nat)
    (asset token : TokenId) (nonce : Nat) (hown : env.caller = env.owner) :
    (txOk (try_set_fee_percentage env s f) = true ↔
      (0 < f ∧ f < PERCENTAGE_TOTAL)) ∧
    (txOk (add_from_token env s asset) = true ↔
      is_valid_esdt_identifier asset = true) ∧
    (txOk (add_to_token env s asset) = true ↔
      is_valid_esdt_identifier asset = true) ∧
    txOk (withdraw env s token nonce) = true := by
  refine ⟨⟨?_, ?_⟩, ⟨?_, ?_⟩, ⟨?_, ?_⟩, ?_⟩
  · intro h
    have hp := step_ok_pre env s (Op.setFeeOp f) h
    simp only [preB, Bool.and_eq_true, decide_eq_true_eq] at hp
    exact ⟨hp.1.2, hp.2⟩
  · intro hc
    exact step_pre_ok env s (Op.setFeeOp f)
      (by simp only [preB, Bool.and_eq_true, decide_eq_true_eq]; tauto)
  · intro h
    have hp := step_ok_pre env s (Op.addFromTokenOp asset) h
    simp only [preB, Bool.and_eq_true, decide_eq_true_eq] at hp
    exact hp.2
  · intro hc
    exact step_pre_ok env s (Op.addFromTokenOp asset)
      (by simp only [preB, Bool.and_eq_true, decide_eq_true_eq]; exact ⟨hown, hc⟩)
  · intro h
    have hp := step_ok_pre env s (Op.setToTokenOp asset) h
    simp only [preB, Bool.and_eq_true, decide_eq_true_eq] at hp
    exact hp.2
  · intro hc
    exact step_pre_ok env s (Op.setToTokenOp asset)
      (by simp only [preB, Bool.and_eq_true, decide_eq_true_eq]; exact ⟨hown, hc⟩)
  · unfold withdraw only_owner
    rw [if_pos hown]
    rfl

theorem claim_C6_admin_validation_witness :
    txOk (withdraw env_demo s_demo tokA 3) = true :=
  (claim_C6_admin_validation env_demo s_demo 250 tokA tokA 3 rfl).2.2.2

/-- C10: the supported-input-token set grows monotonically under every
operation, is left unchanged by every operation other than addFromToken,
and an accepted addFromToken implies the caller is the owner and the set
afterwards is the insertion of the one given asset. -/
theorem claim_C10_from_tokens_monotone (env : Env) (s : State) (op : Op)
    (t asset : TokenId) :
    (t ∈ s.from_tokens → t ∈ (txState (step env s op)).from_tokens) ∧
    (Op.isAddFromToken op = false →
      (txState (step env s op)).from_tokens = s.from_tokens) ∧
    (txOk (step env s (Op.addFromTokenOp asset)) = true →
      env.caller = env.owner ∧
      (txState (step env s (Op.addFromTokenOp asset))).from_tokens =
        insert_token asset s.from_tokens) := by
  refine ⟨?_, ?_, ?_⟩
  · intro hmem
    cases hres : step env s op with
    | error e =>
      show t ∈ e.2.1.from_tokens
      rw [(step_error_frame env s op e hres).1]
      exact hmem
    | ok r =>
      obtain ⟨r1, r2⟩ := r
      rcases step_from_tokens env s op r1 r2 hres with heq | ⟨a, -, -, hins⟩
      · show t ∈ r1.from_tokens
        rw [heq]
        exact hmem
      · show t ∈ r1.from_tokens
        rw [hins]
        exact mem_insert_token t a s.from_tokens hmem
  · intro hnot
    cases hres : step env s op with
    | error e =>
      show e.2.1.from_tokens = s.from_tokens
      rw [(step_error_frame env s op e hres).1]
    | ok r =>
      obtain ⟨r1, r2⟩ := r
      rcases step_from_tokens env s op r1 r2 hres with heq | ⟨a, hop, -, -⟩
      · exact heq
      · subst hop
        simp [Op.isAddFromToken] at hnot
  · intro hok
    cases hres : step env s (Op.addFromTokenOp asset) with
    | error e =>
      rw [hres] at hok
      simp [txOk] at hok
    | ok r =>
      obtain ⟨r1, r2⟩ := r
      obtain ⟨h1, -, hft, -⟩ := add_from_ok env s asset r1 r2 hres
      exact ⟨h1, hft⟩

theorem claim_C10_from_tokens_monotone_witness :
    env_demo.caller = env_demo.owner ∧
    (txState (step env_demo s_demo (Op.addFromTokenOp tokB))).from_tokens =
      insert_token tokB s_demo.from_tokens :=
  (claim_C10_from_tokens_monotone env_demo s_demo (Op.addFromTokenOp tokB) tokA tokB).2.2
    rfl

end Unlocker
